import Mathlib

/-!
Shallow embedding of the translation-request orchestration layer of the
Kurdish–Turkish–English translation client, together with theorems about
its reconcile, swap, promote-alternative and debounce behaviour.

The repository ships several variants of the app component and of the
service call; where two variants differ in a way a theorem depends on,
both are embedded and the definition says which variant it comes from.
-/

set_option autoImplicit false

namespace KurdishTranslate

/-- `Language` from `types.ts` (the variant without `auto`, the one the
generation-counter app component uses): `ku | tr | en`. -/
inductive Language where
  | ku
  | tr
  | en
deriving DecidableEq

/-- `Language` from `types.ts` (the variant with `auto`):
`auto | ku | tr | en`. -/
inductive LanguageWithAuto where
  | auto
  | ku
  | tr
  | en
deriving DecidableEq

/-- `UiLanguage` from `i18n.ts`: `en | tr | ku`. -/
inductive UiLanguage where
  | en
  | tr
  | ku
deriving DecidableEq

/-- String form of a `LanguageWithAuto` value, as interpolated by the
template literal building the request key in the keyed app variant. -/
def languageWithAutoStr : LanguageWithAuto → String
  | .auto => "auto"
  | .ku => "ku"
  | .tr => "tr"
  | .en => "en"

/-- String form of a `UiLanguage` value, as interpolated by the template
literal building the request key in the keyed app variant. -/
def uiLanguageStr : UiLanguage → String
  | .en => "en"
  | .tr => "tr"
  | .ku => "ku"

/-- `TranslationResult` from `types.ts`. -/
structure TranslationResult where
  detectedLanguage : String
  correctedSourceText : String
  mainTranslation : String
  alternativeTranslations : List String
  meaningExplanation : String
deriving DecidableEq

/-- The JSON object parsed from the model response in `translateText`:
each schema field may be absent from the parse, so every field is an
`Option`. -/
structure ParsedResponse where
  detectedLanguage : Option String
  correctedSourceText : Option String
  mainTranslation : Option String
  alternativeTranslations : Option (List String)
  meaningExplanation : Option String
deriving DecidableEq

/-- Model of JavaScript `String.prototype.trim`: drop whitespace from
both ends of the string. Written over the character list so that it is
kernel-executable. -/
def jsTrim (s : String) : String :=
  String.mk
    (List.reverse (List.dropWhile Char.isWhitespace
      (List.reverse (List.dropWhile Char.isWhitespace s.data))))

/-- JavaScript `s || d` for a possibly-absent string field: an absent
field and the empty string are both falsy, so both fall through to the
default. -/
def jsStrOr (o : Option String) (d : String) : String :=
  match o with
  | none => d
  | some s => if s = "" then d else s

/-- JavaScript `a || []` for a possibly-absent array field: an absent
field is falsy, but a present empty array is truthy and is kept. -/
def jsArrOr (o : Option (List String)) : List String :=
  o.getD []

/-- The record literal `translateText` returns after a successful parse
(`geminiService.ts` lines 112–118; identical in the other service
variant): `detectedLanguage`, `mainTranslation` and `meaningExplanation`
default to the empty string, `alternativeTranslations` to the empty
array, and `correctedSourceText` defaults to the original input `text`. -/
def buildResult (text : String) (p : ParsedResponse) : TranslationResult where
  detectedLanguage := jsStrOr p.detectedLanguage ""
  correctedSourceText := jsStrOr p.correctedSourceText text
  mainTranslation := jsStrOr p.mainTranslation ""
  alternativeTranslations := jsArrOr p.alternativeTranslations
  meaningExplanation := jsStrOr p.meaningExplanation ""

/-- The all-empty `TranslationResult` returned by `translateText` on
blank input (`geminiService.ts` lines 47–55). -/
def emptyTranslationResult : TranslationResult where
  detectedLanguage := ""
  correctedSourceText := ""
  mainTranslation := ""
  alternativeTranslations := []
  meaningExplanation := ""

/-- Truthiness of `process.env.API_KEY`: absent and empty are falsy. -/
def hasApiKey (apiKey : Option String) : Bool :=
  match apiKey with
  | none => false
  | some k => !(k == "")

/-- Outcome of the external model call plus JSON parse, which the
embedding takes as a parameter: `.ok` is a parsed response object, and
`.error` covers both a failed network call and a response that fails to
parse (both land in the same `catch`). -/
abbrev NetOutcome := Except Unit ParsedResponse

/-- `translateText` from `src/services/geminiService.ts`: first the
credential check (missing key throws `API_KEY_MISSING`), then the blank
input short-circuit, then the external call, whose failure is rethrown
as the generic message. The language arguments only shape the prompt. -/
def translateText (apiKey : Option String) (net : NetOutcome) (text : String)
    (sourceLang targetLang : LanguageWithAuto) (uiLang : UiLanguage) :
    Except String TranslationResult :=
  if hasApiKey apiKey = false then
    Except.error "API_KEY_MISSING"
  else if jsTrim text = "" then
    Except.ok emptyTranslationResult
  else
    match net with
    | Except.ok p => Except.ok (buildResult text p)
    | Except.error _ =>
        Except.error
          "Failed to get translation from AI. Please check your API key and try again."

/-- `translateText` from the service variant embedded in `i18n.ts`
(lines 137–203): no credential check at all; blank input short-circuits
before anything else. -/
def translateTextNoKeyCheck (net : NetOutcome) (text : String)
    (sourceLang targetLang : LanguageWithAuto) (uiLang : UiLanguage) :
    Except String TranslationResult :=
  if jsTrim text = "" then
    Except.ok emptyTranslationResult
  else
    match net with
    | Except.ok p => Except.ok (buildResult text p)
    | Except.error _ =>
        Except.error
          "Failed to get translation from AI. Please check your API key and try again."

/-- The two UI-string keys the orchestrator error path looks up. -/
inductive UiKey where
  | apiError
  | apiKeyMissingError
deriving DecidableEq

/-- The `t` lookup of `i18n.ts` restricted to the two keys the
orchestrator uses, with the literal strings of the translation tables
(the variant that defines `apiKeyMissingError`). Every key is defined
for every language, so the `|| translations.en[key]` fallback of the
source never fires here. -/
def t : UiLanguage → UiKey → String
  | .en, .apiError =>
      "API connection failed. Please check your connection and API Key."
  | .en, .apiKeyMissingError =>
      "API Key is not configured. Please set it up in your deployment environment."
  | .tr, .apiError =>
      "API bağlantısı başarısız. Lütfen bağlantınızı ve API anahtarınızı kontrol edin."
  | .tr, .apiKeyMissingError =>
      "API Anahtarı yapılandırılmamış. Lütfen dağıtım ortamınızda ayarlayın."
  | .ku, .apiError =>
      "Têkiliya APIyê têk çû. Ji kerema xwe pêwendiya xwe û mifteya APIya xwe kontrol bikin."
  | .ku, .apiKeyMissingError =>
      "Mifteya APIyê nehatiye veavakirin. Ji kerema xwe wê di hawîrdora xweya bicîhkirinê de saz bikin."

/-- The orchestrator state owned by the generation-counter app component
(`src/unnamed/part_000`): the `useState` cells touched by
`performTranslation`, `handleSwapLanguages`, `handleAlternativeClick`
and the language effect, together with `requestGenerationRef`. -/
structure AppState where
  sourceText : String
  sourceLang : Language
  targetLang : Language
  result : Option TranslationResult
  isLoading : Bool
  error : String
  isMeaningVisible : Bool
  showAlternatives : Bool
  generation : Nat
deriving DecidableEq

/-- The synchronous prefix of `performTranslation`
(`src/unnamed/part_000` lines 33–42), up to the `await`: on blank
debounced text it clears `result` and `error` and returns without
dispatching (it does not touch `isLoading`); otherwise it increments the
generation counter, sets `isLoading`, clears `error`, and dispatches.
The second component is the captured generation of the dispatched
request, or `none` when no request was dispatched. -/
def performTranslation (s : AppState) (debouncedSourceText : String) :
    AppState × Option Nat :=
  if jsTrim debouncedSourceText = "" then
    ({ s with result := none, error := "" }, none)
  else
    let g := s.generation + 1
    ({ s with generation := g, isLoading := true, error := "" }, some g)

/-- The continuation of `performTranslation` after the `await`
(`src/unnamed/part_000` lines 43–59), applied when the call settles with
outcome `o` and captured generation `g`: every write — the success
writes, the `catch` writes and the `finally` write — is guarded by
`currentGeneration === requestGenerationRef.current`. -/
def performTranslationSettle (uiLang : UiLanguage) (s : AppState) (g : Nat)
    (o : Except String TranslationResult) : AppState :=
  match o with
  | Except.ok r =>
      if g = s.generation then
        { s with result := some r, isMeaningVisible := false,
                 showAlternatives := false, isLoading := false }
      else s
  | Except.error msg =>
      if g = s.generation then
        { s with
            error := if msg = "API_KEY_MISSING" then t uiLang .apiKeyMissingError
                     else t uiLang .apiError,
            result := none, isLoading := false }
      else s

/-- Settle a list of overlapping completions, each carrying its captured
generation and outcome, in arrival order. -/
def settleAll (uiLang : UiLanguage) (s : AppState) :
    List (Nat × Except String TranslationResult) → AppState
  | [] => s
  | (g, o) :: rest => settleAll uiLang (performTranslationSettle uiLang s g o) rest

/-- `handleSwapLanguages` (`src/unnamed/part_000` lines 72–76): exchange
the two language selections and set the source text to
`result?.mainTranslation || ''`. -/
def handleSwapLanguages (s : AppState) : AppState :=
  { s with
      sourceLang := s.targetLang,
      targetLang := s.sourceLang,
      sourceText := match s.result with
        | some r => if r.mainTranslation = "" then "" else r.mainTranslation
        | none => "" }

/-- The language-distinctness effect (`src/unnamed/part_000` lines
66–70): whenever the two selections coincide, force the target to `en`
if the source is `ku` and to `ku` otherwise. -/
def languageEffect (s : AppState) : AppState :=
  if s.sourceLang = s.targetLang then
    { s with targetLang := if s.sourceLang = Language.ku then Language.en else Language.ku }
  else s

/-- `handleAlternativeClick` (`src/unnamed/part_000` lines 84–90): when
a result is present, promote the clicked alternative to
`mainTranslation` and append the previous main translation to the
alternative list after filtering the clicked string out of it. -/
def handleAlternativeClick (s : AppState) (alternative : String) : AppState :=
  match s.result with
  | none => s
  | some r =>
      { s with result := some ({ r with
          mainTranslation := alternative,
          alternativeTranslations :=
            (r.alternativeTranslations.filter (fun x => x ≠ alternative))
              ++ [r.mainTranslation] }) }

/-- The orchestrator state owned by the request-key app variant (the
app component using `lastRequestRef`): the cells its `performTranslation`
touches before the `await`. -/
structure KeyedAppState where
  lastRequest : String
  result : Option TranslationResult
  isLoading : Bool
  error : String
deriving DecidableEq

/-- The request key of the keyed app variant: the template literal
interpolating the 4-tuple with `:` separators. -/
def requestKey (text : String) (sourceLang targetLang : LanguageWithAuto)
    (uiLang : UiLanguage) : String :=
  text ++ ":" ++ languageWithAutoStr sourceLang ++ ":"
    ++ languageWithAutoStr targetLang ++ ":" ++ uiLanguageStr uiLang

/-- The synchronous prefix of `performTranslation` in the request-key
app variant, up to the `await`: blank text clears `result` and `error`
and returns; a key equal to the most-recently-dispatched key returns
without touching anything; otherwise it sets `isLoading`, clears
`error`, records the key, and dispatches. The boolean reports whether
the external `translateText` call was dispatched. -/
def performTranslationKeyed (s : KeyedAppState) (debouncedSourceText : String)
    (sourceLang targetLang : LanguageWithAuto) (uiLang : UiLanguage) :
    KeyedAppState × Bool :=
  let key := requestKey debouncedSourceText sourceLang targetLang uiLang
  if jsTrim debouncedSourceText = "" ∨ s.lastRequest = key then
    (if jsTrim debouncedSourceText = "" then { s with result := none, error := "" }
     else s, false)
  else
    ({ s with isLoading := true, error := "", lastRequest := key }, true)

/-- State of the `useDebounce` hook between events: the published
debounced value and the pending `setTimeout`, recorded as its due time
and the value it would publish. -/
structure DebounceState where
  debounced : String
  pending : Option (Nat × String)
deriving DecidableEq

/-- Fire the pending timer if its due time has been reached: the timer
callback publishes the captured value (`setDebouncedValue(value)`). -/
def firePending (s : DebounceState) (now : Nat) : DebounceState :=
  match s.pending with
  | none => s
  | some (due, v) => if due ≤ now then { debounced := v, pending := none } else s

/-- One source-value change at time `now`: the effect cleanup clears the
previous timer — which fired already exactly when its due time has
passed — and schedules a new timer `delay` units ahead publishing the
new value. -/
def debounceInput (delay : Nat) (s : DebounceState) (now : Nat) (v : String) :
    DebounceState :=
  { debounced := (firePending s now).debounced, pending := some (now + delay, v) }

/-- Run the `useDebounce` hook over a timed list of source-value
changes. -/
def runDebounce (delay : Nat) (s : DebounceState) :
    List (Nat × String) → DebounceState
  | [] => s
  | (now, v) :: rest => runDebounce delay (debounceInput delay s now v) rest

/-- The debounced value observed at time `endTime` (also the teardown
time: a timer still pending then — due strictly later — is cancelled by
the effect cleanup and never publishes). -/
def observeDebounced (delay : Nat) (init : String)
    (events : List (Nat × String)) (endTime : Nat) : String :=
  (firePending
    (runDebounce delay { debounced := init, pending := none } events)
    endTime).debounced

/-- Modelled from the spec: "the debounced value emitted equals the last
value of a contiguous run of inputs separated by gaps ≥ delay". An
input commits exactly when the next input (or the observation time, for
the last input) is at least `delay` later; the observed value is the
last committed input, or the initial value when none committed. This
definition is the specification side of the refinement; `runDebounce`
above is the code side. -/
def debouncedSpecValue (delay : Nat) (init : String) :
    List (Nat × String) → Nat → String
  | [], _ => init
  | (now, v) :: rest, endTime =>
      let next := match rest with
        | [] => endTime
        | (n2, _) :: _ => n2
      debouncedSpecValue delay (if now + delay ≤ next then v else init) rest endTime

/-- A sample translation result used to instantiate witnesses. -/
def sampleResult : TranslationResult where
  detectedLanguage := ""
  correctedSourceText := "rojbas"
  mainTranslation := "hello"
  alternativeTranslations := ["hi", "greetings"]
  meaningExplanation := "a greeting"

/-- A sample orchestrator state with a request in flight (generation 2),
used to instantiate witnesses. -/
def sampleLoadingState : AppState where
  sourceText := "rojbas"
  sourceLang := Language.ku
  targetLang := Language.en
  result := none
  isLoading := true
  error := ""
  isMeaningVisible := false
  showAlternatives := false
  generation := 2

/-- A sample orchestrator state holding a completed result, used to
instantiate witnesses. -/
def sampleResultState : AppState where
  sourceText := "rojbas"
  sourceLang := Language.ku
  targetLang := Language.en
  result := some sampleResult
  isLoading := false
  error := ""
  isMeaningVisible := false
  showAlternatives := false
  generation := 3

/-- A sample orchestrator state whose two language selections coincide,
used to instantiate witnesses. -/
def equalLangState : AppState where
  sourceText := ""
  sourceLang := Language.ku
  targetLang := Language.ku
  result := none
  isLoading := false
  error := ""
  isMeaningVisible := false
  showAlternatives := false
  generation := 0

/-- A sample state of the request-key app variant before any dispatch,
used to instantiate witnesses. -/
def freshKeyedState : KeyedAppState where
  lastRequest := ""
  result := none
  isLoading := false
  error := ""

/-- A parse in which every schema field is absent. -/
def parsedAllMissing : ParsedResponse where
  detectedLanguage := none
  correctedSourceText := none
  mainTranslation := none
  alternativeTranslations := none
  meaningExplanation := none

lemma performTranslationSettle_stale (ul : UiLanguage) (s : AppState) (g : Nat)
    (o : Except String TranslationResult) (h : s.generation ≠ g) :
    performTranslationSettle ul s g o = s := by
  have hg : ¬ g = s.generation := fun he => h he.symm
  cases o with
  | ok r => simp [performTranslationSettle, hg]
  | error msg => simp [performTranslationSettle, hg]

lemma performTranslationSettle_generation (ul : UiLanguage) (s : AppState)
    (g : Nat) (o : Except String TranslationResult) :
    (performTranslationSettle ul s g o).generation = s.generation := by
  cases o with
  | ok r =>
      by_cases hg : g = s.generation <;> simp [performTranslationSettle, hg]
  | error msg =>
      by_cases hg : g = s.generation <;> simp [performTranslationSettle, hg]

lemma settleAll_stale (ul : UiLanguage) (s : AppState)
    (cs : List (Nat × Except String TranslationResult))
    (h : ∀ p ∈ cs, p.1 ≠ s.generation) : settleAll ul s cs = s := by
  induction cs with
  | nil => rfl
  | cons p rest ih =>
      obtain ⟨g, o⟩ := p
      have h1 : g ≠ s.generation := h (g, o) (List.mem_cons_self _ _)
      rw [settleAll, performTranslationSettle_stale ul s g o (fun he => h1 he.symm)]
      exact ih (fun q hq => h q (List.mem_cons_of_mem _ hq))

/-- C1. Stale-completion discard: a completion whose captured generation
differs from the current generation leaves the whole state — in
particular `result` and `error` — unchanged; every dispatch bumps the
generation counter by one and captures the bumped value, so every
previously captured generation is stale from then on; and any sequence
of completions all of whose captured generations differ from the current
one is a no-op in any arrival order, so `result` and `error` only ever
reflect the outcome of the most-recently-dispatched request. -/
theorem stale_completion_discard :
    (∀ (ul : UiLanguage) (s : AppState) (g : Nat)
        (o : Except String TranslationResult),
        s.generation ≠ g → performTranslationSettle ul s g o = s)
    ∧ (∀ (s : AppState) (text : String), jsTrim text ≠ "" →
        (performTranslation s text).2 = some (s.generation + 1)
        ∧ (performTranslation s text).1.generation = s.generation + 1)
    ∧ (∀ (ul : UiLanguage) (s : AppState)
        (cs : List (Nat × Except String TranslationResult)),
        (∀ p ∈ cs, p.1 ≠ s.generation) → settleAll ul s cs = s) := by
  refine ⟨performTranslationSettle_stale, ?_, settleAll_stale⟩
  intro s text h
  simp [performTranslation, h]

/-- Witness for C1 at a concrete state: a completion captured at
generation 1 arriving while the current generation is 2 changes
nothing. -/
theorem stale_completion_discard_witness :
    performTranslationSettle UiLanguage.en sampleLoadingState 1
      (Except.ok sampleResult) = sampleLoadingState :=
  stale_completion_discard.1 UiLanguage.en sampleLoadingState 1
    (Except.ok sampleResult) (by decide)

/-- C2. Duplicate suppression in the request-key app variant: a fresh
4-tuple dispatches the external call, and an immediately repeated
reconcile with the identical 4-tuple — whose key now equals the
most-recently-dispatched key — returns without dispatching and without
changing the state, so exactly one external call is made for the pair. -/
theorem duplicate_suppression (s : KeyedAppState) (text : String)
    (sourceLang targetLang : LanguageWithAuto) (uiLang : UiLanguage)
    (htext : jsTrim text ≠ "")
    (hkey : s.lastRequest ≠ requestKey text sourceLang targetLang uiLang) :
    (performTranslationKeyed s text sourceLang targetLang uiLang).2 = true
    ∧ (performTranslationKeyed
        (performTranslationKeyed s text sourceLang targetLang uiLang).1
        text sourceLang targetLang uiLang).2 = false
    ∧ (performTranslationKeyed
        (performTranslationKeyed s text sourceLang targetLang uiLang).1
        text sourceLang targetLang uiLang).1
      = (performTranslationKeyed s text sourceLang targetLang uiLang).1 := by
  simp [performTranslationKeyed, htext, hkey]

/-- Witness for C2 at a concrete fresh state and input. -/
theorem duplicate_suppression_witness :
    (performTranslationKeyed freshKeyedState ("rojbas") LanguageWithAuto.ku
        LanguageWithAuto.en UiLanguage.tr).2 = true
    ∧ (performTranslationKeyed
        (performTranslationKeyed freshKeyedState ("rojbas") LanguageWithAuto.ku
          LanguageWithAuto.en UiLanguage.tr).1
        ("rojbas") LanguageWithAuto.ku LanguageWithAuto.en UiLanguage.tr).2 = false
    ∧ (performTranslationKeyed
        (performTranslationKeyed freshKeyedState ("rojbas") LanguageWithAuto.ku
          LanguageWithAuto.en UiLanguage.tr).1
        ("rojbas") LanguageWithAuto.ku LanguageWithAuto.en UiLanguage.tr).1
      = (performTranslationKeyed freshKeyedState ("rojbas") LanguageWithAuto.ku
          LanguageWithAuto.en UiLanguage.tr).1 :=
  duplicate_suppression freshKeyedState ("rojbas") LanguageWithAuto.ku
    LanguageWithAuto.en UiLanguage.tr (by decide) (by decide)

/-- C3 counterexample. The claim says the empty-input reconcile sets
`isLoading` to false; but the blank branch of `performTranslation` only
writes `result` and `error`, so invoking it while a request is in flight
(`isLoading = true`) leaves `isLoading` true. -/
theorem empty_reconcile_isLoading_counterexample :
    ¬ ((performTranslation sampleLoadingState "").1.isLoading = false) := by
  decide

/-- C3 (amended). Empty-input reconcile: when the debounced text trims
to the empty string, the orchestrator sets `result` to null and `error`
to the empty string, dispatches no external call, and leaves `isLoading`
unchanged (it is not set to false). -/
theorem empty_reconcile_amended (s : AppState) (text : String)
    (h : jsTrim text = "") :
    (performTranslation s text).1.result = none
    ∧ (performTranslation s text).1.error = ""
    ∧ (performTranslation s text).1.isLoading = s.isLoading
    ∧ (performTranslation s text).1.generation = s.generation
    ∧ (performTranslation s text).2 = none := by
  simp [performTranslation, h]

/-- Witness for the amended C3 at a concrete state and the empty
string. -/
theorem empty_reconcile_amended_witness :
    (performTranslation sampleLoadingState "").1.result = none
    ∧ (performTranslation sampleLoadingState "").1.error = ""
    ∧ (performTranslation sampleLoadingState "").1.isLoading
        = sampleLoadingState.isLoading
    ∧ (performTranslation sampleLoadingState "").1.generation
        = sampleLoadingState.generation
    ∧ (performTranslation sampleLoadingState "").2 = none :=
  empty_reconcile_amended sampleLoadingState "" (by decide)

/-- C4. Swap languages: the source and target selections are exchanged;
when the result holds a nonempty `mainTranslation` the source text is
replaced by that translation; when there is no result, or the held
`mainTranslation` is empty (falsy), the source text is set to the empty
string rather than to any translation. -/
theorem swap_languages (s : AppState) :
    (handleSwapLanguages s).sourceLang = s.targetLang
    ∧ (handleSwapLanguages s).targetLang = s.sourceLang
    ∧ (∀ r, s.result = some r → r.mainTranslation ≠ "" →
        (handleSwapLanguages s).sourceText = r.mainTranslation)
    ∧ (s.result = none → (handleSwapLanguages s).sourceText = "")
    ∧ (∀ r, s.result = some r → r.mainTranslation = "" →
        (handleSwapLanguages s).sourceText = "") := by
  refine ⟨rfl, rfl, ?_, ?_, ?_⟩
  · intro r hr hm
    simp [handleSwapLanguages, hr, hm]
  · intro hr
    simp [handleSwapLanguages, hr]
  · intro r hr hm
    simp [handleSwapLanguages, hr, hm]

/-- Witness for C4 at a concrete state holding the sample result. -/
theorem swap_languages_witness :
    (handleSwapLanguages sampleResultState).sourceText = "hello" :=
  (swap_languages sampleResultState).2.2.1 sampleResult rfl (by decide)

/-- C5. Language-distinctness invariant: after the language effect runs
on any state, the source and target selections differ; and when they
were equal the target is forced by the fixed rule — `en` when the source
is `ku`, `ku` otherwise. -/
theorem language_distinctness (s : AppState) :
    (languageEffect s).sourceLang ≠ (languageEffect s).targetLang
    ∧ (s.sourceLang = s.targetLang →
        (languageEffect s).targetLang
          = (if s.sourceLang = Language.ku then Language.en else Language.ku)) := by
  constructor
  · by_cases h : s.sourceLang = s.targetLang
    · simp only [languageEffect, if_pos h]
      cases hs : s.sourceLang <;> simp
    · simp only [languageEffect, if_neg h]
      exact h
  · intro h
    simp [languageEffect, h]

/-- Witness for C5 at a concrete state with both selections `ku`. -/
theorem language_distinctness_witness :
    (languageEffect equalLangState).sourceLang
        ≠ (languageEffect equalLangState).targetLang
    ∧ (languageEffect equalLangState).targetLang = Language.en :=
  ⟨(language_distinctness equalLangState).1,
   (language_distinctness equalLangState).2 rfl⟩

/-- C6. Promote alternative: with `mainTranslation = M` and alternatives
`[A, B]` pairwise distinct, promoting `A` yields `mainTranslation = A`
and alternative list `[B, M]` — as a set exactly `{B, M}`, without
duplicates or loss — while `correctedSourceText`, `meaningExplanation`
and `detectedLanguage` are unchanged; the edit is a pure local state
update (in particular the generation counter is untouched, so no
external call is involved). -/
theorem promote_alternative (s : AppState) (r : TranslationResult)
    (A B : String)
    (hres : s.result = some r)
    (halts : r.alternativeTranslations = [A, B])
    (hAB : A ≠ B) (hAM : A ≠ r.mainTranslation) (hBM : B ≠ r.mainTranslation) :
    ∃ r2, (handleAlternativeClick s A).result = some r2
      ∧ r2.mainTranslation = A
      ∧ r2.alternativeTranslations = [B, r.mainTranslation]
      ∧ (∀ x, x ∈ r2.alternativeTranslations ↔ (x = B ∨ x = r.mainTranslation))
      ∧ r2.alternativeTranslations.Nodup
      ∧ r2.correctedSourceText = r.correctedSourceText
      ∧ r2.meaningExplanation = r.meaningExplanation
      ∧ r2.detectedLanguage = r.detectedLanguage
      ∧ (handleAlternativeClick s A).generation = s.generation := by
  have hBA : B ≠ A := hAB.symm
  refine ⟨{ r with
      mainTranslation := A,
      alternativeTranslations :=
        (r.alternativeTranslations.filter (fun x => x ≠ A)) ++ [r.mainTranslation] },
    ?_, rfl, ?_, ?_, ?_, rfl, rfl, rfl, ?_⟩
  · simp [handleAlternativeClick, hres]
  · simp [halts, List.filter, hBA]
  · intro x
    simp [halts, List.filter, hBA]
  · simp [halts, List.filter, hBA, hBM]
  · simp [handleAlternativeClick, hres]

/-- Witness for C6 at the sample result (`M = "hello"`,
alternatives `["hi", "greetings"]`). -/
theorem promote_alternative_witness :
    ∃ r2, (handleAlternativeClick sampleResultState ("hi")).result = some r2
      ∧ r2.mainTranslation = "hi"
      ∧ r2.alternativeTranslations = ["greetings", "hello"]
      ∧ (∀ x, x ∈ r2.alternativeTranslations
            ↔ (x = "greetings" ∨ x = "hello"))
      ∧ r2.alternativeTranslations.Nodup
      ∧ r2.correctedSourceText = "rojbas"
      ∧ r2.meaningExplanation = "a greeting"
      ∧ r2.detectedLanguage = ""
      ∧ (handleAlternativeClick sampleResultState ("hi")).generation
          = sampleResultState.generation :=
  promote_alternative sampleResultState sampleResult ("hi") ("greetings")
    rfl rfl (by decide) (by decide) (by decide)

/-- C7 counterexample. The claim says every field missing from the
parse is defaulted to the empty string; but a missing
`correctedSourceText` is defaulted to the original input text, which is
nonempty whenever the call is reachable. -/
theorem response_defaulting_counterexample :
    ¬ ((buildResult ("hi") parsedAllMissing).correctedSourceText = "") := by
  decide

/-- C7 (amended). Response defaulting: a missing `detectedLanguage`,
`mainTranslation` or `meaningExplanation` is defaulted to the empty
string and a missing `alternativeTranslations` to the empty array, while
a missing `correctedSourceText` is defaulted to the original input text;
the returned record is total, so no field is ever undefined. -/
theorem response_defaulting_amended (text : String) (p : ParsedResponse) :
    (p.detectedLanguage = none → (buildResult text p).detectedLanguage = "")
    ∧ (p.correctedSourceText = none →
        (buildResult text p).correctedSourceText = text)
    ∧ (p.mainTranslation = none → (buildResult text p).mainTranslation = "")
    ∧ (p.alternativeTranslations = none →
        (buildResult text p).alternativeTranslations = [])
    ∧ (p.meaningExplanation = none →
        (buildResult text p).meaningExplanation = "") := by
  refine ⟨?_, ?_, ?_, ?_, ?_⟩ <;> intro h <;> simp [buildResult, jsStrOr, jsArrOr, h]

/-- Witness for the amended C7 at a concrete input text and the
all-missing parse. -/
theorem response_defaulting_amended_witness :
    (buildResult ("hi") parsedAllMissing).correctedSourceText = "hi" :=
  (response_defaulting_amended ("hi") parsedAllMissing).2.1 rfl

/-- C8. Configuration-error mapping: with the credential absent,
`translateText` fails with `API_KEY_MISSING` whatever the network would
have answered; settling that failure for a freshly dispatched request
writes the localized `apiKeyMissingError` string to `error`, clears
`result`, and ends with `isLoading = false`; settling any other failure
message for a current-generation request writes the localized generic
`apiError` string instead. Both settle paths are total functions, so no
error crosses the orchestrator boundary. -/
theorem configuration_error_mapping :
    (∀ (apiKey : Option String) (net : NetOutcome) (text : String)
        (sourceLang targetLang : LanguageWithAuto) (uiLang : UiLanguage),
        hasApiKey apiKey = false →
        translateText apiKey net text sourceLang targetLang uiLang
          = Except.error "API_KEY_MISSING")
    ∧ (∀ (ul : UiLanguage) (s : AppState) (text : String), jsTrim text ≠ "" →
        (performTranslationSettle ul (performTranslation s text).1
            (s.generation + 1) (Except.error "API_KEY_MISSING")).error
            = t ul UiKey.apiKeyMissingError
        ∧ (performTranslationSettle ul (performTranslation s text).1
            (s.generation + 1) (Except.error "API_KEY_MISSING")).result = none
        ∧ (performTranslationSettle ul (performTranslation s text).1
            (s.generation + 1) (Except.error "API_KEY_MISSING")).isLoading = false)
    ∧ (∀ (ul : UiLanguage) (s : AppState) (msg : String),
        msg ≠ "API_KEY_MISSING" →
        (performTranslationSettle ul s s.generation (Except.error msg)).error
            = t ul UiKey.apiError
        ∧ (performTranslationSettle ul s s.generation
            (Except.error msg)).result = none
        ∧ (performTranslationSettle ul s s.generation
            (Except.error msg)).isLoading = false) := by
  refine ⟨?_, ?_, ?_⟩
  · intro apiKey net text sourceLang targetLang uiLang h
    simp [translateText, h]
  · intro ul s text h
    simp [performTranslation, h, performTranslationSettle]
  · intro ul s msg h
    simp [performTranslationSettle, h]

/-- Witness for C8: a missing key fails the call, and settling the
configuration failure and a generic failure writes the respective
localized messages at concrete states. -/
theorem configuration_error_mapping_witness :
    translateText none (Except.error ()) ("rojbas") LanguageWithAuto.ku
        LanguageWithAuto.en UiLanguage.tr = Except.error "API_KEY_MISSING"
    ∧ (performTranslationSettle UiLanguage.tr
        (performTranslation sampleLoadingState ("rojbas")).1
        (sampleLoadingState.generation + 1)
        (Except.error "API_KEY_MISSING")).error
        = t UiLanguage.tr UiKey.apiKeyMissingError
    ∧ (performTranslationSettle UiLanguage.en sampleLoadingState
        sampleLoadingState.generation (Except.error ("boom"))).error
        = t UiLanguage.en UiKey.apiError :=
  ⟨configuration_error_mapping.1 none (Except.error ()) ("rojbas")
      LanguageWithAuto.ku LanguageWithAuto.en UiLanguage.tr (by decide),
   (configuration_error_mapping.2.1 UiLanguage.tr sampleLoadingState ("rojbas")
      (by decide)).1,
   (configuration_error_mapping.2.2 UiLanguage.en sampleLoadingState ("boom")
      (by decide)).1⟩

/-- C10. Service-side empty-text short-circuit: with a nonempty key
present, blank input makes `translateText` return the all-empty result
for every possible network outcome (so no external model call is
consulted); the `i18n.ts` service variant does the same with no
credential check at all; and in the `geminiService.ts` variant the
credential check precedes the short-circuit, so a missing key fails even
on blank input. -/
theorem service_empty_short_circuit :
    (∀ (k : String), k ≠ "" → ∀ (net : NetOutcome) (text : String)
        (sourceLang targetLang : LanguageWithAuto) (uiLang : UiLanguage),
        jsTrim text = "" →
        translateText (some k) net text sourceLang targetLang uiLang
          = Except.ok ({ detectedLanguage := "", correctedSourceText := "",
                         mainTranslation := "", alternativeTranslations := [],
                         meaningExplanation := "" } : TranslationResult))
    ∧ (∀ (net : NetOutcome) (text : String)
        (sourceLang targetLang : LanguageWithAuto) (uiLang : UiLanguage),
        jsTrim text = "" →
        translateTextNoKeyCheck net text sourceLang targetLang uiLang
          = Except.ok ({ detectedLanguage := "", correctedSourceText := "",
                         mainTranslation := "", alternativeTranslations := [],
                         meaningExplanation := "" } : TranslationResult))
    ∧ (∀ (net : NetOutcome) (text : String)
        (sourceLang targetLang : LanguageWithAuto) (uiLang : UiLanguage),
        translateText none net text sourceLang targetLang uiLang
          = Except.error "API_KEY_MISSING") := by
  refine ⟨?_, ?_, ?_⟩
  · intro k hk net text sourceLang targetLang uiLang ht
    have hkey : hasApiKey (some k) = true := by
      simp [hasApiKey, hk]
    simp [translateText, hkey, ht, emptyTranslationResult]
  · intro net text sourceLang targetLang uiLang ht
    simp [translateTextNoKeyCheck, ht, emptyTranslationResult]
  · intro net text sourceLang targetLang uiLang
    simp [translateText, hasApiKey]

/-- Witness for C10 at a concrete key, blank input and an arbitrary
network outcome. -/
theorem service_empty_short_circuit_witness :
    translateText (some ("K")) (Except.ok parsedAllMissing) ("  ")
        LanguageWithAuto.auto LanguageWithAuto.ku UiLanguage.en
      = Except.ok ({ detectedLanguage := "", correctedSourceText := "",
                     mainTranslation := "", alternativeTranslations := [],
                     meaningExplanation := "" } : TranslationResult)
    ∧ translateTextNoKeyCheck (Except.error ()) ("") LanguageWithAuto.ku
        LanguageWithAuto.tr UiLanguage.ku
      = Except.ok ({ detectedLanguage := "", correctedSourceText := "",
                     mainTranslation := "", alternativeTranslations := [],
                     meaningExplanation := "" } : TranslationResult) :=
  ⟨service_empty_short_circuit.1 ("K") (by decide) (Except.ok parsedAllMissing)
      ("  ") LanguageWithAuto.auto LanguageWithAuto.ku UiLanguage.en (by decide),
   service_empty_short_circuit.2.1 (Except.error ()) ("") LanguageWithAuto.ku
      LanguageWithAuto.tr UiLanguage.ku (by decide)⟩

lemma runDebounce_pending_spec (delay endTime : Nat) :
    ∀ (events : List (Nat × String)) (d : String) (due : Nat) (pv : String),
      (firePending (runDebounce delay { debounced := d, pending := some (due, pv) }
          events) endTime).debounced
        = debouncedSpecValue delay
            (if due ≤ (match events with | [] => endTime | (n, _) :: _ => n)
             then pv else d)
            events endTime := by
  intro events
  induction events with
  | nil =>
      intro d due pv
      by_cases h : due ≤ endTime <;>
        simp [runDebounce, firePending, debouncedSpecValue, h]
  | cons head rest ih =>
      obtain ⟨now, v⟩ := head
      intro d due pv
      rw [runDebounce, debounceInput]
      have hfp : (firePending { debounced := d, pending := some (due, pv) }
          now).debounced = if due ≤ now then pv else d := by
        by_cases h : due ≤ now <;> simp [firePending, h]
      rw [hfp, ih]
      simp only [debouncedSpecValue]

/-- C9. Debounce contract, as a refinement of the quiescent-run
characterization: over any strictly increasing timeline of source-value
changes all occurring before the observation (teardown) time, the value
the `useDebounce` semantics exposes equals the specification value — the
last input followed by a quiet gap of at least `delay` (measured against
the next input, or against the observation time for the final input),
and the initial value when no input has such a gap. Consequently no
input superseded within `delay` is ever published (its timer is
cleared), no value is published strictly before `delay` units of
quiescence (instantiate `endTime` below the due time), and teardown
before the delay elapses cancels the pending update. -/
theorem useDebounce_characterization (delay : Nat) (init : String)
    (events : List (Nat × String)) (endTime : Nat)
    (hchain : List.Chain' (fun a b => a.1 < b.1) events)
    (hend : ∀ e ∈ events, e.1 ≤ endTime) :
    observeDebounced delay init events endTime
      = debouncedSpecValue delay init events endTime := by
  cases events with
  | nil => rfl
  | cons head rest =>
      obtain ⟨now, v⟩ := head
      rw [observeDebounced, runDebounce, debounceInput]
      have hfp : (firePending { debounced := init, pending := none }
          now).debounced = init := rfl
      rw [hfp, runDebounce_pending_spec]
      simp only [debouncedSpecValue]

/-- Witness for C9: two rapid edits then a settled third value; the
observed debounced value is the third value, as the characterization
computes. -/
theorem useDebounce_characterization_witness :
    observeDebounced 750 ("") [(0, "r"), (100, "ro"), (900, "rojbas")] 2000
      = debouncedSpecValue 750 ("") [(0, "r"), (100, "ro"), (900, "rojbas")] 2000 :=
  useDebounce_characterization 750 ("") [(0, "r"), (100, "ro"), (900, "rojbas")]
    2000 (by simp [List.chain'_cons]) (by decide)

end KurdishTranslate
